import Mathlib

/-!
Verification of the SRL (semantic role labeling) analysis pipeline of
`app/srl/analyzer.py` against its design specification.

The pipeline is embedded shallowly:
* the spaCy tokenizer is an external capability, so `analyze` takes the
  token sequence (surface, lemma, POS tag) the tokenizer produced for the
  input text as an argument; determinism of the tokenizer is therefore
  automatic in the model (the same token list is used everywhere);
* the OpenAI gateway call is external, so `analyze` takes the outcome of
  the `chat.completions.create` call as an argument: either the exception
  message it raised, or the parse outcome of the returned content string
  (`none` models `json.loads` failing or the parsed object lacking a
  `roles` key; `some entries` models a successfully parsed `roles` list,
  each entry being a JSON object rendered as a key/value association list);
* Python exceptions are modelled with `Except String`: `Except.error e`
  means the Python code raises an exception that the function does not
  catch, with description `e`;
* Python string primitives (`find`, slicing, `split`, `strip`, `in`) are
  re-implemented on `List Char` by structural recursion so every
  definition evaluates inside the kernel; Python string indices are code
  point indices, which coincide with `String.toList` indices.

All definitions mirror `app/srl/analyzer.py` statement by statement,
including its quirks: the local variable `text` is rebound inside the role
conversion loop (shadowing the input text), the whole conversion loop sits
under a single `except` that resets `roles` to `[]`, and `make_prompt` is
invoked before the `try` block of `analyze`.
-/

namespace SRL

/-- Token produced by the tokenizer: surface text, lemma, coarse POS tag
(mirrors the spaCy token attributes `text`, `lemma_`, `pos_` used by the
analyzer). -/
structure Token where
  text : String
  lemma_ : String
  pos_ : String
deriving DecidableEq, Repr

/-- The inverse form mapping `inv_form_mapping`: lemma → predicate group,
a Python dict rendered as an association list. -/
abbrev FormIndex := List (String × String)

/-- A JSON object, rendered as a key/value association list (all values
relevant to the pipeline are strings). -/
abbrev Entry := List (String × String)

/-! ### Python string primitives on character lists -/

/-- Helper for `pySplitWs`: accumulates the current word (reversed). -/
def splitWsAux : List Char → List Char → List String
  | [], cur => if cur.isEmpty then [] else [cur.reverse.asString]
  | c :: cs, cur =>
    if c.isWhitespace then
      if cur.isEmpty then splitWsAux cs []
      else cur.reverse.asString :: splitWsAux cs []
    else splitWsAux cs (c :: cur)

/-- Python `s.split()`: split on whitespace runs, discarding empty words. -/
def pySplitWs (s : String) : List String :=
  splitWsAux s.toList []

/-- Helper for `pySplitChar`. -/
def splitCharAux (d : Char) : List Char → List Char → List String
  | [], cur => [cur.reverse.asString]
  | c :: cs, cur =>
    if c == d then cur.reverse.asString :: splitCharAux d cs []
    else splitCharAux d cs (c :: cur)

/-- Python `s.split(d)` for a one-character separator `d`, keeping empty
parts. -/
def pySplitChar (s : String) (d : Char) : List String :=
  splitCharAux d s.toList []

/-- Index of the first occurrence of `c`, as a code point index. -/
def idxOf? : List Char → Char → Option Nat
  | [], _ => none
  | c :: cs, d =>
    if c == d then some 0
    else (idxOf? cs d).map (· + 1)

/-- Python `s.find(c)`: `some i` for the first occurrence, `none` for -1. -/
def pyFind (s : String) (c : Char) : Option Nat :=
  idxOf? s.toList c

/-- Python slice `s[a:b]` on code point indices (empty when `b ≤ a`). -/
def pySlice (s : String) (a b : Nat) : String :=
  ((s.toList.drop a).take (b - a)).asString

/-- Whether the character list `pat` occurs as a prefix of `s`. -/
def startsWithChars : List Char → List Char → Bool
  | _, [] => true
  | [], _ :: _ => false
  | c :: cs, p :: ps => c == p && startsWithChars cs ps

/-- Whether `pat` occurs as a contiguous sublist of `s`. -/
def containsChars : List Char → List Char → Bool
  | [], pat => pat.isEmpty
  | c :: rest, pat => startsWithChars (c :: rest) pat || containsChars rest pat

/-- Python `pat in s` substring containment. -/
def pyContains (s pat : String) : Bool :=
  containsChars s.toList pat.toList

/-- Python `s.strip(cs)`: drop characters of `cs` from both ends. -/
def pyStrip (s : String) (cs : List Char) : String :=
  (((s.toList.dropWhile fun c => cs.contains c).reverse.dropWhile
      fun c => cs.contains c).reverse).asString

/-! ### Predicate resolver (`find_verbs`, `has_relevant_predicates`,
`extract_predicates`, `get_predicate_group`) -/

/-- Whether a lemma has an entry in the inverse form mapping
(`lemma in self.inv_form_mapping`). -/
def lemmaInIndex (idx : FormIndex) (l : String) : Bool :=
  (idx.lookup l).isSome

/-- `find_verbs`: filter tokens with POS tag VERB, returning the parallel
lists `(verbs, forms)` — lemmas first, surface forms second, order
preserved. -/
def find_verbs (tokens : List Token) : List String × List String :=
  let vs := tokens.filter fun t => t.pos_ == "VERB"
  (vs.map Token.lemma_, vs.map Token.text)

/-- `has_relevant_predicates`: the found verb lemmas intersect the keys of
`inv_form_mapping` (`bool(set(lemmas).intersection(...))`). -/
def has_relevant_predicates (idx : FormIndex) (tokens : List Token) : Bool :=
  (find_verbs tokens).1.any (lemmaInIndex idx)

/-- `extract_predicates`: zip the found lemmas with their surface forms,
keep the pairs whose lemma is in `inv_form_mapping`, and return
`(new_forms, new_lemmas)`. -/
def extract_predicates (idx : FormIndex) (tokens : List Token) :
    List String × List String :=
  let lf := find_verbs tokens
  let pairs := (lf.1.zip lf.2).filter fun p => lemmaInIndex idx p.1
  (pairs.map Prod.snd, pairs.map Prod.fst)

/-- `get_predicate_group`: the group of the first lemma with a
`inv_form_mapping` entry, `none` when no lemma matches. -/
def get_predicate_group (idx : FormIndex) (lemmas : List String) :
    Option String :=
  lemmas.findSome? fun l => idx.lookup l

/-! ### Prompt builder (`make_prompt`) -/

/-- One example role annotation from the example corpus: the dict with the
`entity` key read by `make_prompt`. -/
structure ExampleRole where
  entity : String
deriving DecidableEq, Repr

/-- One annotated example sentence from the example corpus (the keys
`group`, `text`, `roles` read by the analyzer). -/
structure Example where
  group : String
  text : String
  roles : List ExampleRole
deriving DecidableEq, Repr

/-- One step of `_create_inverse_examples_mapping`: bucket an example under
its declared group, creating the bucket on first sight and preserving
insertion order. -/
def addExample (m : List (String × List Example)) (ex : Example) :
    List (String × List Example) :=
  if (m.lookup ex.group).isSome then
    m.map fun p => if p.1 == ex.group then (p.1, p.2 ++ [ex]) else p
  else m ++ [(ex.group, [ex])]

/-- `_create_inverse_examples_mapping`: left fold of `addExample` over the
example corpus in source order. -/
def create_inverse_examples_mapping (examples : List Example) :
    List (String × List Example) :=
  examples.foldl addExample []

/-- The role object re-encoded from an example annotation
(the dict literal built at the `roles.append` call of `make_prompt`). -/
structure EncodedRole where
  short_reasoning : String
  arg_role : String
  arg_phrase_or_clause : String
  arg_main_indicative_word : String
deriving DecidableEq, Repr

/-- Re-encoding of one example's role annotations, mirroring the inner
loop of `make_prompt`: skip entities containing the substring
`#predicate`; otherwise split the entity on `#`, read part 1 as the role
label (IndexError when the entity has no `#`), strip dash/space decoration
from part 0 as the phrase, and take the phrase's first whitespace word as
the main indicative word (IndexError when the phrase has no word). -/
def encodeExampleRoles (roles : List ExampleRole) :
    Except String (List EncodedRole) :=
  List.foldlM (fun acc r =>
    if pyContains r.entity "#predicate" then pure acc
    else
      let parts := pySplitChar r.entity '#'
      match parts.get? 1 with
      | none => Except.error "IndexError: role_parts 1"
      | some argRole =>
        let phrase := pyStrip (parts.headD "") ['-', ' ']
        match (pySplitWs phrase).head? with
        | none => Except.error "IndexError: phrase split 0"
        | some mainWord =>
          pure (acc ++
            [⟨"Example role from training data", argRole, phrase, mainWord⟩]))
    [] roles

/-- Content of a chat message: either a plain string (system and user
messages, which the source builds with f-strings) or the JSON rendering of
a role list (assistant messages, which the source builds with
`json.dumps`; the serialization itself is abstracted). -/
inductive Content where
  | str (s : String)
  | rolesJson (roles : List EncodedRole)
deriving DecidableEq, Repr

/-- One chat message of the prompt (the dicts with `role` and `content`
keys appended by `make_prompt`). -/
structure Message where
  role : String
  content : Content
deriving DecidableEq, Repr

/-- The system message content of `make_prompt`, with the serialized rule
set interpolated. -/
def systemContent (ruleSet : String) : String :=
  "You are a Russian linguist specializing in semantic role labeling.\nYour task is to analyze Russian text and identify semantic roles according to these rules:\n\n"
  ++ ruleSet ++
  "\n\nFormat your response as a JSON object with a \"roles\" array. Each role should have:\n- short_reasoning: Brief explanation of why this role was assigned\n- arg_role: The semantic role from the rules above\n- arg_phrase_or_clause: The full phrase or clause that fills this role\n- arg_main_indicative_word: The main word that indicates this role\n\nIf no roles can be identified, return a single role with \"Not-Applicable\" values."

/-- The final user message content of `make_prompt`, with the input text
interpolated. -/
def finalUserContent (text : String) : String :=
  "Please analyze this text and identify all semantic roles:\n" ++ text ++
  "\n\nRemember:\n1. Only identify roles that are explicitly present in the text\n2. Use the exact words/phrases from the input text\n3. Provide clear, concise reasoning for each role\n4. If no roles can be identified, use \"Not-Applicable\""

/-- `make_prompt(text, predicate_group)`. The role rule set for the group
is looked up in `role_mapping` (KeyError when absent; its `json.dumps`
serialization is modelled as the stored string) and the example bucket in
`inv_examples_mapping` (KeyError when the group has no bucket). Then: the
system message, a user/assistant message pair for each of the first two
examples of the bucket, and the final user message carrying the input
text. -/
def make_prompt (roleMapping : List (String × String))
    (invExamples : List (String × List Example))
    (text : String) (group : String) : Except String (List Message) :=
  match roleMapping.lookup group with
  | none => Except.error "KeyError: role_mapping"
  | some ruleSet =>
    match invExamples.lookup group with
    | none => Except.error "KeyError: inv_examples_mapping"
    | some exs => do
      let exampleSet := exs.take 2
      let prompt ←
        List.foldlM
          (fun (acc : List Message) ex => do
            let encoded ← encodeExampleRoles ex.roles
            pure (acc ++
              [⟨"user", .str ex.text⟩, ⟨"assistant", .rolesJson encoded⟩]))
          [⟨"system", .str (systemContent ruleSet)⟩] exampleSet
      pure (prompt ++ [⟨"user", .str (finalUserContent text)⟩])

/-! ### Response normalizer (the conversion loop inside `analyze`) -/

/-- One simplified role of the API output (the dicts with `role` and
`text` keys appended to `roles` inside `analyze`). -/
structure RoleOut where
  role : String
  text : String
deriving DecidableEq, Repr

/-- Outcome of the conversion loop body for one parsed role entry:
the entry is silently dropped (a delimiter is missing), a Python exception
is raised (missing `text` or `role` key, or no word inside the
parentheses), or a simplified role is produced. -/
inductive EntryOutcome where
  | dropped
  | raised
  | extracted (r : RoleOut)
deriving DecidableEq, Repr

/-- The body of the conversion loop of `analyze` for one role entry:
read `text` (KeyError when absent), find the first `(` and `)`; when
either is missing the entry is dropped; otherwise slice the content
between them, read `role` (KeyError when absent), and take the first
whitespace word of the content for role `Experiencer`, else the last
(IndexError when the content has no word). -/
def processEntry (e : Entry) : EntryOutcome :=
  match e.lookup "text" with
  | none => .raised
  | some t =>
    match pyFind t '(', pyFind t ')' with
    | some s, some en =>
      let content := pySlice t (s + 1) en
      match e.lookup "role" with
      | none => .raised
      | some r =>
        let ws := pySplitWs content
        if r == "Experiencer" then
          match ws.head? with
          | none => .raised
          | some w => .extracted ⟨r, w⟩
        else
          match ws.getLast? with
          | none => .raised
          | some w => .extracted ⟨r, w⟩
    | _, _ => .dropped

/-- The conversion loop of `analyze` over the parsed `roles` entries,
threading the local variable `text` (which the loop rebinds to each
entry's `text` value, shadowing the input text) and the accumulated roles.
Returns the final value of `text` and `some` accumulated roles, or `none`
when an iteration raises (the surrounding `except` then resets `roles` to
the empty list while keeping the rebound `text`). -/
def convertLoop (text : String) (acc : List RoleOut) :
    List Entry → String × Option (List RoleOut)
  | [] => (text, some acc)
  | e :: rest =>
    let newText := ((e.lookup "text").getD text)
    match processEntry e with
    | .raised => (newText, none)
    | .dropped => convertLoop newText acc rest
    | .extracted r => convertLoop newText (acc ++ [r]) rest

/-- The conversion of a parsed `roles` list starting from the input text
and an empty accumulator. -/
def convertRoles (text : String) (entries : List Entry) :
    String × Option (List RoleOut) :=
  convertLoop text [] entries

/-! ### Analysis orchestrator (`analyze`) -/

/-- Outcome of the gateway call: the exception message of a raising
`chat.completions.create` call (or of the `response.choices` access), or
the parse outcome of the returned content (`none`: `json.loads` failed or
the parsed object has no `roles` key; `some entries`: the parsed `roles`
list). -/
abbrev LLMOutcome := Except String (Option (List Entry))

/-- The result dict returned by `analyze` (`error` is the optional
`error` key of the degraded result). -/
structure AnalysisResult where
  text : String
  predicates : List String
  lemmas : List String
  roles : List RoleOut
  has_relevant_predicates : Bool
  error : Option String
deriving DecidableEq, Repr

/-- The part of `analyze` from the resolved predicate group on: build the
prompt (exceptions here are NOT caught — `make_prompt` runs before the
`try` block), then enter the `try`: a raising gateway call is caught by
the outer `except` and yields the degraded result with the `error` key;
a content string that fails to parse is caught by the inner `except` and
yields empty roles with no `error` key; parsed entries run through the
conversion loop, whose raising iterations are also caught by the inner
`except` (resetting roles to empty and keeping the rebound `text`). -/
def analyzeResolved (roleMapping : List (String × String))
    (invExamples : List (String × List Example))
    (predicates lemmas : List String) (text group : String)
    (llm : LLMOutcome) : Except String AnalysisResult :=
  match make_prompt roleMapping invExamples text group with
  | Except.error e => Except.error e
  | Except.ok _prompt =>
    match llm with
    | Except.error e =>
      Except.ok ⟨text, predicates, lemmas, [], true, some e⟩
    | Except.ok none =>
      Except.ok ⟨text, predicates, lemmas, [], true, none⟩
    | Except.ok (some entries) =>
      let conv := convertRoles text entries
      Except.ok ⟨conv.1, predicates, lemmas, conv.2.getD [], true, none⟩

/-- `analyze(text)`: short-circuit with an all-empty result when no
relevant predicate is present; otherwise extract predicates/lemmas,
resolve the predicate group as `inv_form_mapping[lemmas[0]]` (IndexError
on an empty lemma list, KeyError on a missing mapping entry — both
uncaught), and continue with `analyzeResolved`. -/
def analyze (idx : FormIndex) (roleMapping : List (String × String))
    (invExamples : List (String × List Example))
    (tokens : List Token) (text : String) (llm : LLMOutcome) :
    Except String AnalysisResult :=
  if has_relevant_predicates idx tokens = false then
    Except.ok ⟨text, [], [], [], false, none⟩
  else
    let pl := extract_predicates idx tokens
    match pl.2.head? with
    | none => Except.error "IndexError: lemmas 0"
    | some l0 =>
      match idx.lookup l0 with
      | none => Except.error "KeyError: inv_form_mapping"
      | some group =>
        analyzeResolved roleMapping invExamples pl.1 pl.2 text group llm

/-- The predicate group `analyze` resolves at the line
`predicate_group = self.inv_form_mapping[lemmas[0]]`. -/
def resolvedGroup (idx : FormIndex) (tokens : List Token) : Option String :=
  ((extract_predicates idx tokens).2.head?).bind fun l0 => idx.lookup l0

/-! ### Derived notions used to state the claims -/

/-- A token the extraction stage keeps: POS tag VERB and lemma present in
the inverse form mapping. -/
def isMatchedVerb (idx : FormIndex) (t : Token) : Bool :=
  t.pos_ == "VERB" && lemmaInIndex idx t.lemma_

/-- The role the conversion loop extracts from an entry, `none` when the
entry is dropped or raises. -/
def extractedRole (e : Entry) : Option RoleOut :=
  match processEntry e with
  | .extracted r => some r
  | _ => none

/-- Spec reading of the first-match policy as literally claimed: the group
of the first token, in sentence token order, whose lemma has a FormIndex
entry (with no part-of-speech restriction). -/
def specFirstEntryGroup (idx : FormIndex) (tokens : List Token) :
    Option String :=
  (tokens.find? fun t => lemmaInIndex idx t.lemma_).bind fun t =>
    idx.lookup t.lemma_

/-- Spec reading of the matched-token set as literally claimed: all tokens
whose lemma is in the FormIndex (with no part-of-speech restriction). -/
def specMatchingTokens (idx : FormIndex) (tokens : List Token) : List Token :=
  tokens.filter fun t => lemmaInIndex idx t.lemma_

/-- The per-entry keys the system message of `make_prompt` instructs the
model to emit (its four bullet lines). These are NOT the keys of the
schema passed as the guided-json constraint of the gateway call. -/
def promptInstructedKeys : List String :=
  ["short_reasoning", "arg_role", "arg_phrase_or_clause",
   "arg_main_indicative_word"]

/-- A parsed role entry following the system prompt's instructed format:
its keys are exactly the four instructed keys. -/
def promptInstructedEntry (e : Entry) : Bool :=
  e.map Prod.fst == promptInstructedKeys

/-- The role labels admitted by the `role` field of `SemanticRole` in
`models.py`. -/
def semanticRoleLabels : List String :=
  ["Cause", "Experiencer", "Causator", "Deliberative", "Instrument",
   "Object", "Not-Applicable"]

/-- A parsed role entry conforming to the JSON schema actually requested
from the gateway (`SemanticRoleMarkup.model_json_schema()` passed as the
guided-json constraint): the public fields of `SemanticRole` are exactly
`role` (one of the admitted labels) and `text` (1 to 64 characters); the
underscore-prefixed attributes of `SemanticRole` are pydantic private
attributes and are excluded from the schema. -/
def schemaConformingEntry (e : Entry) : Bool :=
  (e.map Prod.fst == ["role", "text"] ||
   e.map Prod.fst == ["text", "role"]) &&
  (match e.lookup "role" with
   | some r => semanticRoleLabels.contains r
   | none => false) &&
  (match e.lookup "text" with
   | some t => decide (1 ≤ t.length) && decide (t.length ≤ 64)
   | none => false)

instance {ε α : Type} [DecidableEq ε] [DecidableEq α] :
    DecidableEq (Except ε α) := fun a b =>
  match a, b with
  | .ok x, .ok y =>
    if h : x = y then .isTrue (by rw [h])
    else .isFalse (by intro hc; cases hc; exact h rfl)
  | .error x, .error y =>
    if h : x = y then .isTrue (by rw [h])
    else .isFalse (by intro hc; cases hc; exact h rfl)
  | .ok _, .error _ => .isFalse (by intro hc; cases hc)
  | .error _, .ok _ => .isFalse (by intro hc; cases hc)

/-! ### Helper lemmas -/

/-- Characterization of `extract_predicates`: the surface forms and lemmas
of the tokens that are verbs with an indexed lemma, in source order. -/
theorem extract_predicates_eq (idx : FormIndex) (tokens : List Token) :
    extract_predicates idx tokens =
      ((tokens.filter (isMatchedVerb idx)).map Token.text,
       (tokens.filter (isMatchedVerb idx)).map Token.lemma_) := by
  induction tokens with
  | nil => rfl
  | cons t ts ih =>
    simp only [extract_predicates, find_verbs, List.filter_cons] at ih ⊢
    by_cases hv : (t.pos_ == "VERB") = true
    · simp only [hv, if_true, List.map_cons, List.zip_cons_cons,
        List.filter_cons, isMatchedVerb, Bool.true_and]
      by_cases hl : lemmaInIndex idx t.lemma_ = true
      · simp only [hl, if_true, List.map_cons]
        exact congrArg₂ (fun a b => (t.text :: a, t.lemma_ :: b))
          (congrArg Prod.fst ih) (congrArg Prod.snd ih)
      · simp only [Bool.not_eq_true] at hl
        simp only [hl, Bool.false_eq_true, if_false]
        exact ih
    · simp only [Bool.not_eq_true] at hv
      simp only [hv, Bool.false_eq_true, if_false, isMatchedVerb, hv,
        Bool.false_and]
      exact ih

/-- The relevance check succeeds exactly when some token is a verb with an
indexed lemma. -/
theorem has_relevant_predicates_iff (idx : FormIndex) (tokens : List Token) :
    has_relevant_predicates idx tokens = true ↔
      ∃ t ∈ tokens, t.pos_ = "VERB" ∧ lemmaInIndex idx t.lemma_ = true := by
  simp only [has_relevant_predicates, find_verbs, List.any_eq_true,
    List.mem_map, List.mem_filter]
  constructor
  · rintro ⟨l, ⟨t, ⟨ht, hv⟩, rfl⟩, hl⟩
    exact ⟨t, ht, by simpa using hv, hl⟩
  · rintro ⟨t, ht, hv, hl⟩
    exact ⟨t.lemma_, ⟨t, ⟨ht, by simpa using hv⟩, rfl⟩, hl⟩

/-- The head of a filtered list is the first element satisfying the
predicate. -/
theorem filter_head?_eq_find? {α : Type} (p : α → Bool) (l : List α) :
    (l.filter p).head? = l.find? p := by
  induction l with
  | nil => rfl
  | cons a as ih =>
    simp only [List.filter_cons, List.find?]
    by_cases h : p a = true
    · simp [h]
    · simp only [Bool.not_eq_true] at h
      simp [h, ih]

/-- When the relevance check succeeds, the extraction returns non-empty
parallel lists. -/
theorem extract_predicates_ne_nil (idx : FormIndex) (tokens : List Token)
    (h : has_relevant_predicates idx tokens = true) :
    (extract_predicates idx tokens).1 ≠ [] ∧
      (extract_predicates idx tokens).2 ≠ [] := by
  rw [has_relevant_predicates_iff] at h
  obtain ⟨t, ht, hv, hl⟩ := h
  rw [extract_predicates_eq]
  have hmem : t ∈ tokens.filter (isMatchedVerb idx) := by
    rw [List.mem_filter]
    exact ⟨ht, by simp [isMatchedVerb, hv, hl]⟩
  constructor <;> · simp only [ne_eq, List.map_eq_nil_iff]
                    intro hnil
                    rw [hnil] at hmem
                    exact List.not_mem_nil t hmem

/-- Every extracted lemma has a FormIndex entry. -/
theorem extract_predicates_lemma_indexed (idx : FormIndex)
    (tokens : List Token) (l : String)
    (h : l ∈ (extract_predicates idx tokens).2) :
    lemmaInIndex idx l = true := by
  rw [extract_predicates_eq] at h
  simp only [List.mem_map, List.mem_filter] at h
  obtain ⟨t, ⟨_, hm⟩, rfl⟩ := h
  simp only [isMatchedVerb, Bool.and_eq_true] at hm
  exact hm.2

/-- When the relevance check succeeds the group resolution of `analyze`
succeeds. -/
theorem resolvedGroup_isSome (idx : FormIndex) (tokens : List Token)
    (h : has_relevant_predicates idx tokens = true) :
    ∃ g, resolvedGroup idx tokens = some g := by
  obtain ⟨-, h2⟩ := extract_predicates_ne_nil idx tokens h
  obtain ⟨l0, ls, hl⟩ := List.exists_cons_of_ne_nil h2
  have hidx : lemmaInIndex idx l0 = true :=
    extract_predicates_lemma_indexed idx tokens l0 (by rw [hl]; simp)
  simp only [lemmaInIndex, Option.isSome_iff_exists] at hidx
  obtain ⟨g, hg⟩ := hidx
  exact ⟨g, by simp [resolvedGroup, hl, hg]⟩

/-- Unfolding of `analyze` on the relevant branch: once the group is
resolved, `analyze` continues with `analyzeResolved` on the extracted
predicates and lemmas. -/
theorem analyze_eq_analyzeResolved (idx : FormIndex)
    (roleMapping : List (String × String))
    (invExamples : List (String × List Example))
    (tokens : List Token) (text : String) (llm : LLMOutcome) (g : String)
    (hrel : has_relevant_predicates idx tokens = true)
    (hg : resolvedGroup idx tokens = some g) :
    analyze idx roleMapping invExamples tokens text llm =
      analyzeResolved roleMapping invExamples
        (extract_predicates idx tokens).1 (extract_predicates idx tokens).2
        text g llm := by
  unfold analyze
  rw [hrel]
  simp only [Bool.true_eq_false, if_false]
  obtain ⟨-, h2⟩ := extract_predicates_ne_nil idx tokens hrel
  obtain ⟨l0, ls, hl⟩ := List.exists_cons_of_ne_nil h2
  simp only [resolvedGroup, hl, List.head?_cons, Option.some_bind] at hg
  rw [hl]
  simp only [List.head?_cons]
  rw [hg]

/-! ### Claim theorems -/

/-- C4: for every input whose tokens contain no verb with a lemma in the
FormIndex, `analyze` returns `has_relevant_predicates = false` with empty
predicates, lemmas and roles, and the result does not depend on the
gateway outcome (no LLM call is made). -/
theorem analyze_irrelevant_short_circuit (idx : FormIndex)
    (rm : List (String × String)) (invEx : List (String × List Example))
    (tokens : List Token) (text : String) (llm llm' : LLMOutcome)
    (h : ∀ t ∈ tokens, t.pos_ = "VERB" → idx.lookup t.lemma_ = none) :
    analyze idx rm invEx tokens text llm =
      Except.ok ⟨text, [], [], [], false, none⟩ ∧
    analyze idx rm invEx tokens text llm =
      analyze idx rm invEx tokens text llm' := by
  have hrel : has_relevant_predicates idx tokens = false := by
    rw [← Bool.not_eq_true, has_relevant_predicates_iff]
    rintro ⟨t, ht, hv, hl⟩
    rw [lemmaInIndex, h t ht hv] at hl
    simp at hl
  refine ⟨?_, ?_⟩ <;> simp [analyze, hrel]

/-- Witness for C4 at a concrete single-noun input. -/
theorem analyze_irrelevant_short_circuit_witness :
    analyze [("бояться", "fear")] [] [] [⟨"текст", "текст", "NOUN"⟩]
        "текст" (Except.error "net") =
      Except.ok ⟨"текст", [], [], [], false, none⟩ :=
  (analyze_irrelevant_short_circuit [("бояться", "fear")] [] []
    [⟨"текст", "текст", "NOUN"⟩] "текст" (Except.error "net")
    (Except.ok none) (by decide)).1

/-- C10: whenever the relevance check succeeds, the extraction returns
non-empty parallel lists, the `lemmas[0]` access and its FormIndex lookup
in `analyze` succeed, and `analyze` proceeds to the resolved stage —
the index access can never fail. -/
theorem lemma_head_safe (idx : FormIndex) (tokens : List Token)
    (h : has_relevant_predicates idx tokens = true) :
    (extract_predicates idx tokens).1 ≠ [] ∧
    (extract_predicates idx tokens).2 ≠ [] ∧
    ∃ g, resolvedGroup idx tokens = some g ∧
      ∀ (rm : List (String × String)) (invEx : List (String × List Example))
        (text : String) (llm : LLMOutcome),
        analyze idx rm invEx tokens text llm =
          analyzeResolved rm invEx (extract_predicates idx tokens).1
            (extract_predicates idx tokens).2 text g llm := by
  obtain ⟨h1, h2⟩ := extract_predicates_ne_nil idx tokens h
  obtain ⟨g, hg⟩ := resolvedGroup_isSome idx tokens h
  exact ⟨h1, h2, g, hg, fun rm invEx text llm =>
    analyze_eq_analyzeResolved idx rm invEx tokens text llm g h hg⟩

/-- Witness for C10 at a concrete input with one relevant verb. -/
theorem lemma_head_safe_witness :
    (extract_predicates [("бояться", "fear")]
      [⟨"боюсь", "бояться", "VERB"⟩]).2 ≠ [] ∧
    ∃ g, resolvedGroup [("бояться", "fear")]
      [⟨"боюсь", "бояться", "VERB"⟩] = some g :=
  have h := lemma_head_safe [("бояться", "fear")]
    [⟨"боюсь", "бояться", "VERB"⟩] (by decide)
  ⟨h.2.1, h.2.2.elim fun g hg => ⟨g, hg.1⟩⟩

/-- C8 counterexample: a token whose lemma is in the FormIndex but whose
POS tag is not VERB (the noun reading of «печь») is ignored by the
extraction, so the returned predicates and lemmas are empty even though
the text contains an indexed lemma — the claim omits the part-of-speech
restriction. -/
theorem extract_nonverb_counterexample :
    lemmaInIndex [("печь", "bake")] "печь" = true ∧
    specMatchingTokens [("печь", "bake")] [⟨"печь", "печь", "NOUN"⟩] ≠ [] ∧
    extract_predicates [("печь", "bake")] [⟨"печь", "печь", "NOUN"⟩]
      = ([], []) ∧
    analyze [("печь", "bake")] [("bake", "RULES")] []
        [⟨"печь", "печь", "NOUN"⟩] "печь" (Except.ok none) =
      Except.ok ⟨"печь", [], [], [], false, none⟩ := by decide

/-- C8 amended: for every token sequence containing a VERB token with an
indexed lemma, the extraction returns exactly the surface forms and
lemmas of the VERB tokens whose lemma is in the FormIndex, as parallel
non-empty sequences preserving source token order. -/
theorem extract_predicates_verbs (idx : FormIndex) (tokens : List Token)
    (h : ∃ t ∈ tokens, t.pos_ = "VERB" ∧ lemmaInIndex idx t.lemma_ = true) :
    extract_predicates idx tokens =
      ((tokens.filter (isMatchedVerb idx)).map Token.text,
       (tokens.filter (isMatchedVerb idx)).map Token.lemma_) ∧
    (extract_predicates idx tokens).1 ≠ [] ∧
    (extract_predicates idx tokens).2 ≠ [] := by
  have hrel := (has_relevant_predicates_iff idx tokens).mpr h
  obtain ⟨h1, h2⟩ := extract_predicates_ne_nil idx tokens hrel
  exact ⟨extract_predicates_eq idx tokens, h1, h2⟩

/-- Witness for C8 amended on a mixed token sequence. -/
theorem extract_predicates_verbs_witness :
    extract_predicates [("бояться", "fear")]
        [⟨"Я", "я", "PRON"⟩, ⟨"боюсь", "бояться", "VERB"⟩,
         ⟨"темноты", "темнота", "NOUN"⟩] =
      (["боюсь"], ["бояться"]) :=
  have h := extract_predicates_verbs [("бояться", "fear")]
    [⟨"Я", "я", "PRON"⟩, ⟨"боюсь", "бояться", "VERB"⟩,
     ⟨"темноты", "темнота", "NOUN"⟩] (by decide)
  h.1.trans (by decide)

/-- C5 counterexample: with a noun token carrying an indexed lemma before
the first relevant verb, the group resolved by `analyze` is the first
VERB lemma's group, not the group of the first token-order lemma with a
FormIndex entry as the claim states; the analysis then looks up the
verb's group in the role mapping, raising even though the claim-predicted
group has a role rule and examples. -/
theorem first_lemma_group_counterexample :
    resolvedGroup [("печь", "bake"), ("бояться", "fear")]
        [⟨"печь", "печь", "NOUN"⟩, ⟨"боюсь", "бояться", "VERB"⟩]
      = some "fear" ∧
    specFirstEntryGroup [("печь", "bake"), ("бояться", "fear")]
        [⟨"печь", "печь", "NOUN"⟩, ⟨"боюсь", "бояться", "VERB"⟩]
      = some "bake" ∧
    "bake" ≠ "fear" ∧
    analyze [("печь", "bake"), ("бояться", "fear")] [("bake", "RULES")]
        (create_inverse_examples_mapping
          [⟨"bake", "Пример", [⟨"- Я # Experiencer"⟩]⟩])
        [⟨"печь", "печь", "NOUN"⟩, ⟨"боюсь", "бояться", "VERB"⟩]
        "печь боюсь" (Except.ok none)
      = Except.error "KeyError: role_mapping" := by decide

/-- C5 amended: the group used for prompt construction is the group of
the first VERB token, in sentence token order, whose lemma has a
FormIndex entry; only that group drives the resolved stage. -/
theorem resolved_group_first_verb (idx : FormIndex) (tokens : List Token)
    (tok : Token) (g : String)
    (hfind : tokens.find? (isMatchedVerb idx) = some tok)
    (hg : idx.lookup tok.lemma_ = some g) :
    resolvedGroup idx tokens = some g ∧
    ∀ (rm : List (String × String)) (invEx : List (String × List Example))
      (text : String) (llm : LLMOutcome),
      analyze idx rm invEx tokens text llm =
        analyzeResolved rm invEx (extract_predicates idx tokens).1
          (extract_predicates idx tokens).2 text g llm := by
  have hhead : (tokens.filter (isMatchedVerb idx)).head? = some tok := by
    rw [filter_head?_eq_find?]; exact hfind
  have hl2 : (extract_predicates idx tokens).2.head? = some tok.lemma_ := by
    rw [extract_predicates_eq]
    simp only [List.head?_map, hhead, Option.map_some']
  have hres : resolvedGroup idx tokens = some g := by
    rw [resolvedGroup, hl2, Option.some_bind, hg]
  have hrel : has_relevant_predicates idx tokens = true := by
    rw [has_relevant_predicates_iff]
    have hm := List.mem_of_find?_eq_some hfind
    have hp := List.find?_some hfind
    simp only [isMatchedVerb, Bool.and_eq_true, beq_iff_eq] at hp
    exact ⟨tok, hm, hp.1, hp.2⟩
  exact ⟨hres, fun rm invEx text llm =>
    analyze_eq_analyzeResolved idx rm invEx tokens text llm g hrel hres⟩

/-- Witness for C5 amended: two relevant verbs from different groups in
one sentence resolve to the first verb's group. -/
theorem resolved_group_first_verb_witness :
    resolvedGroup [("бояться", "fear"), ("нравиться", "like")]
        [⟨"боюсь", "бояться", "VERB"⟩, ⟨"нравится", "нравиться", "VERB"⟩]
      = some "fear" :=
  (resolved_group_first_verb [("бояться", "fear"), ("нравиться", "like")]
    [⟨"боюсь", "бояться", "VERB"⟩, ⟨"нравится", "нравиться", "VERB"⟩]
    ⟨"боюсь", "бояться", "VERB"⟩ "fear" (by decide) (by decide)).1

/-- C2: the conversion loop body extracts the phrase from the `text`
field between the first `(` and the first `)`, silently drops the entry
when either delimiter is absent, and within the parenthesized content
takes the first whitespace word for role `Experiencer` and the last word
for every other role; concretely, `explanation (я боюсь)` yields «я» for
`Experiencer` and «боюсь» for `Object`. -/
theorem processEntry_spec (label t : String) :
    ((pyFind t '(' = none ∨ pyFind t ')' = none) →
      processEntry [("text", t), ("role", label)] = .dropped) ∧
    (∀ s en w ws, pyFind t '(' = some s → pyFind t ')' = some en →
      pySplitWs (pySlice t (s + 1) en) = w :: ws →
      processEntry [("text", t), ("role", label)] =
        .extracted ⟨label,
          if label = "Experiencer" then w
          else ((w :: ws).getLast?).getD ""⟩) ∧
    processEntry [("text", "explanation (я боюсь)"), ("role", "Experiencer")]
      = .extracted ⟨"Experiencer", "я"⟩ ∧
    processEntry [("text", "explanation (я боюсь)"), ("role", "Object")]
      = .extracted ⟨"Object", "боюсь"⟩ := by
  have h1 : List.lookup "text" [("text", t), ("role", label)] = some t := rfl
  have h2 : List.lookup "role" [("text", t), ("role", label)] = some label :=
    rfl
  refine ⟨?_, ?_, by decide, by decide⟩
  · intro h
    rcases hf : pyFind t '(' with _ | s <;>
      rcases hg : pyFind t ')' with _ | en <;>
      simp_all [processEntry]
  · intro s en w ws hf hg hws
    unfold processEntry
    simp only [h1, hf, hg, h2, hws]
    by_cases hl : label = "Experiencer"
    · simp [hl]
    · have hbeq : (label == "Experiencer") = false := by
        simpa using hl
      rcases hlast : (w :: ws).getLast? with _ | x
      · rw [List.getLast?_eq_getLast_of_ne_nil (List.cons_ne_nil w ws)]
          at hlast
        cases hlast
      · simp [hbeq, hl, hlast]

/-- Witness for C2 on the concrete spec example, discharging the
delimiters-found hypothesis with the computed positions. -/
theorem processEntry_spec_witness :
    pyFind "explanation (я боюсь)" '(' = some 12 ∧
    pyFind "explanation (я боюсь)" ')' = some 20 ∧
    processEntry [("text", "explanation (я боюсь)"), ("role", "Object")] =
      .extracted ⟨"Object", "боюсь"⟩ := by
  refine ⟨by decide, by decide, ?_⟩
  have h := (processEntry_spec "Object" "explanation (я боюсь)").2.1
    12 20 "я" ["боюсь"] (by decide) (by decide) (by decide)
  rw [h]
  decide

/-- A lookup with a key outside an association list's key set fails. -/
theorem lookup_eq_none_of_not_mem_keys (e : Entry) (k : String)
    (h : k ∉ e.map Prod.fst) : e.lookup k = none := by
  induction e with
  | nil => rfl
  | cons p ps ih =>
    simp only [List.map_cons, List.mem_cons, not_or] at h
    obtain ⟨hk, hrest⟩ := h
    have hbeq : (k == p.1) = false := by simpa using hk
    simp only [List.lookup, hbeq]
    exact ih hrest

/-- C9 counterexample: an entry conforming to the schema actually
requested from the gateway (`SemanticRoleMarkup.model_json_schema()`,
whose public fields are `role` and `text`) carries exactly the keys the
conversion loop reads, so the conversion succeeds and `analyze` returns a
non-empty role list — the claim's premise that `text` and `role` are
absent from every schema-conforming entry is false of the program. -/
theorem schema_conforming_entry_counterexample :
    schemaConformingEntry
      [("role", "Experiencer"), ("text", "объяснение (я боюсь)")] = true ∧
    analyze [("бояться", "fear")] [("fear", "RULES")]
        (create_inverse_examples_mapping
          [⟨"fear", "Пример", [⟨"- Я # Experiencer"⟩]⟩])
        [⟨"боюсь", "бояться", "VERB"⟩] "Я боюсь"
        (Except.ok (some
          [[("role", "Experiencer"), ("text", "объяснение (я боюсь)")]]))
      = Except.ok ⟨"объяснение (я боюсь)", ["боюсь"], ["бояться"],
          [⟨"Experiencer", "я"⟩], true, none⟩ := by decide

/-- C9 amended: entries conforming to the requested schema expose exactly
the `role` and `text` keys the conversion loop reads, so the loop's key
lookups succeed on them; it is a completion following the system prompt's
instructed four-key format (`short_reasoning`, `arg_role`,
`arg_phrase_or_clause`, `arg_main_indicative_word`) that lacks `text` and
`role`: on a non-empty list of such entries the conversion raises on the
first entry and `analyze` returns an empty role list. -/
theorem requested_schema_keys_read (entries : List Entry) (t0 : String)
    (hne : entries ≠ [])
    (hpi : ∀ e ∈ entries, promptInstructedEntry e = true) :
    (∀ e : Entry, schemaConformingEntry e = true →
      (∃ r, e.lookup "role" = some r ∧
        semanticRoleLabels.contains r = true) ∧
      (∃ t, e.lookup "text" = some t ∧ 1 ≤ t.length)) ∧
    (convertRoles t0 entries).2 = none ∧
    (∀ (idx : FormIndex) (rm : List (String × String))
      (invEx : List (String × List Example)) (tokens : List Token)
      (text : String) (r : AnalysisResult),
      analyze idx rm invEx tokens text (Except.ok (some entries)) =
        Except.ok r → r.roles = []) := by
  have hconv : ∀ t1 acc, (convertLoop t1 acc entries).2 = none := by
    intro t1 acc
    obtain ⟨e, rest, rfl⟩ := List.exists_cons_of_ne_nil hne
    have hc := hpi e (by simp)
    simp only [promptInstructedEntry, beq_iff_eq] at hc
    have htext : e.lookup "text" = none := by
      apply lookup_eq_none_of_not_mem_keys
      rw [hc]
      decide
    have hp : processEntry e = .raised := by
      unfold processEntry
      rw [htext]
    simp only [convertLoop, hp]
  refine ⟨?_, hconv t0 [], ?_⟩
  · intro e hc
    simp only [schemaConformingEntry, Bool.and_eq_true] at hc
    obtain ⟨⟨-, hrole⟩, htext⟩ := hc
    constructor
    · rcases hr : e.lookup "role" with _ | r <;> rw [hr] at hrole
      · simp at hrole
      · exact ⟨r, rfl, hrole⟩
    · rcases ht : e.lookup "text" with _ | t <;> rw [ht] at htext
      · simp at htext
      · simp only [Bool.and_eq_true, decide_eq_true_eq] at htext
        exact ⟨t, rfl, htext.1⟩
  · intro idx rm invEx tokens text r hr
    simp only [analyze] at hr
    by_cases hrel : has_relevant_predicates idx tokens = false
    · rw [if_pos hrel] at hr
      cases hr
      rfl
    · rw [if_neg hrel] at hr
      rcases hh : (extract_predicates idx tokens).2.head? with _ | l0 <;>
        simp only [hh] at hr
      · exact Except.noConfusion hr
      · rcases hlk : List.lookup l0 idx with _ | g <;> simp only [hlk] at hr
        · exact Except.noConfusion hr
        · simp only [analyzeResolved] at hr
          rcases hmp : make_prompt rm invEx text g with e' | p <;>
            simp only [hmp] at hr
          · exact Except.noConfusion hr
          · simp only [convertRoles, hconv text []] at hr
            cases hr
            rfl

/-- Witness for C9 amended: one concrete prompt-instructed entry makes
the conversion raise, and one concrete schema-conforming entry exposes
the `role` key the loop reads. -/
theorem requested_schema_keys_read_witness :
    (convertRoles "Я боюсь"
      [[("short_reasoning", "объяснение"), ("arg_role", "Experiencer"),
        ("arg_phrase_or_clause", "Я"),
        ("arg_main_indicative_word", "Я")]]).2 = none ∧
    ∃ r, (([("role", "Experiencer"), ("text", "объяснение (я боюсь)")] :
        Entry).lookup "role") = some r ∧
      semanticRoleLabels.contains r = true := by
  have h := requested_schema_keys_read
    [[("short_reasoning", "объяснение"), ("arg_role", "Experiencer"),
      ("arg_phrase_or_clause", "Я"), ("arg_main_indicative_word", "Я")]]
    "Я боюсь" (by decide) (by decide)
  exact ⟨h.2.1,
    (h.1 [("role", "Experiencer"), ("text", "объяснение (я боюсь)")]
      (by decide)).1⟩

/-- When no iteration of the conversion loop raises, the loop keeps the
roles of all extracted entries and drops only the delimiter-less ones. -/
theorem convertLoop_no_raise (entries : List Entry) (t0 : String)
    (acc : List RoleOut)
    (h : ∀ e ∈ entries, processEntry e ≠ .raised) :
    (convertLoop t0 acc entries).2 =
      some (acc ++ entries.filterMap extractedRole) := by
  induction entries generalizing t0 acc with
  | nil => simp [convertLoop]
  | cons e rest ih =>
    have he := h e (by simp)
    have hrest : ∀ x ∈ rest, processEntry x ≠ .raised := fun x hx =>
      h x (by simp [hx])
    simp only [convertLoop]
    rcases hp : processEntry e with _ | _ | r
    · simp only [List.filterMap_cons, extractedRole, hp]
      exact ih _ _ hrest
    · exact absurd hp he
    · simp only [List.filterMap_cons, extractedRole, hp]
      rw [ih _ _ hrest]
      simp

/-- C3 counterexample: a response with a well-formed first entry and a
second entry whose parentheses contain no word; the second entry raises
inside the conversion loop, the surrounding `except` resets `roles` to
empty, and the already-extracted first role is discarded — a single bad
entry does empty the whole request (it also leaks into the result's
`text` field through the shadowed loop variable). -/
theorem convert_reset_counterexample :
    processEntry [("text", "e (a b)"), ("role", "Object")] =
      .extracted ⟨"Object", "b"⟩ ∧
    analyze [("бояться", "fear")] [("fear", "RULES")]
        (create_inverse_examples_mapping
          [⟨"fear", "Пример", [⟨"- Я # Experiencer"⟩]⟩])
        [⟨"боюсь", "бояться", "VERB"⟩] "Я боюсь"
        (Except.ok (some [[("text", "e (a b)"), ("role", "Object")],
                          [("text", "()"), ("role", "Object")]]))
      = Except.ok ⟨"()", ["боюсь"], ["бояться"], [], true, none⟩ := by
  decide

/-- C3 amended: non-parseable gateway output yields `roles = []` with no
exception and no error field, and an entry missing a parenthesis
delimiter is dropped individually, the roles of the remaining entries
being kept — provided no entry raises inside the loop (an entry whose
parentheses hold no word, or without `text`/`role` keys, resets all
roles of the response to empty instead). -/
theorem normalizer_soft_fail (rm : List (String × String))
    (invEx : List (String × List Example)) (text g : String)
    (prompt : List Message) (predicates lemmas : List String)
    (hmp : make_prompt rm invEx text g = Except.ok prompt) :
    analyzeResolved rm invEx predicates lemmas text g (Except.ok none) =
      Except.ok ⟨text, predicates, lemmas, [], true, none⟩ ∧
    ∀ (entries : List Entry) (t0 : String),
      (∀ e ∈ entries, processEntry e ≠ .raised) →
      (convertRoles t0 entries).2 = some (entries.filterMap extractedRole) := by
  constructor
  · unfold analyzeResolved
    rw [hmp]
  · intro entries t0 h
    exact convertLoop_no_raise entries t0 [] h

set_option maxRecDepth 8192 in
/-- Witness for C3 amended: one delimiter-less entry dropped between two
well-formed ones, the two extracted roles surviving. -/
theorem normalizer_soft_fail_witness :
    analyzeResolved [("fear", "RULES")]
        (create_inverse_examples_mapping
          [⟨"fear", "Пример", [⟨"- Я # Experiencer"⟩]⟩])
        ["боюсь"] ["бояться"] "Я боюсь" "fear" (Except.ok none) =
      Except.ok ⟨"Я боюсь", ["боюсь"], ["бояться"], [], true, none⟩ ∧
    (convertRoles "Я боюсь"
      [[("text", "a (я боюсь)"), ("role", "Experiencer")],
       [("text", "no delimiters"), ("role", "Object")],
       [("text", "b (в темноте)"), ("role", "Object")]]).2 =
      some [⟨"Experiencer", "я"⟩, ⟨"Object", "темноте"⟩] := by
  have h := normalizer_soft_fail [("fear", "RULES")]
    (create_inverse_examples_mapping
      [⟨"fear", "Пример", [⟨"- Я # Experiencer"⟩]⟩])
    "Я боюсь" "fear"
    ((make_prompt [("fear", "RULES")]
      (create_inverse_examples_mapping
        [⟨"fear", "Пример", [⟨"- Я # Experiencer"⟩]⟩])
      "Я боюсь" "fear").toOption.getD [])
    ["боюсь"] ["бояться"] (by decide)
  refine ⟨h.1, ?_⟩
  rw [h.2 _ "Я боюсь" (by decide)]
  decide

/-- C1 counterexample: with a relevant predicate resolved, a missing
role-rule entry (first conjunct) or a missing example bucket (second
conjunct) makes `analyze` raise a KeyError to the caller — `make_prompt`
runs before the `try` block, so Prompt Builder failures are not caught
and not converted into a degraded result. -/
theorem analyze_raises_on_missing_role_rule :
    analyze [("бояться", "fear")] [] [] [⟨"боюсь", "бояться", "VERB"⟩]
        "Я боюсь" (Except.ok none) =
      Except.error "KeyError: role_mapping" ∧
    analyze [("бояться", "fear")] [("fear", "RULES")]
        (create_inverse_examples_mapping []) [⟨"боюсь", "бояться", "VERB"⟩]
        "Я боюсь" (Except.ok none) =
      Except.error "KeyError: inv_examples_mapping" := by decide

/-- C1 amended: `analyze` returns a well-formed result for every gateway
outcome whenever the Prompt Builder succeeds on the resolved group (in
particular the gateway failure is caught); when the Prompt Builder fails
after group resolution, the exception propagates instead. -/
theorem analyze_ok_of_prompt_ok (idx : FormIndex)
    (rm : List (String × String)) (invEx : List (String × List Example))
    (tokens : List Token) (text : String) (llm : LLMOutcome)
    (h : ∀ g, resolvedGroup idx tokens = some g →
      (make_prompt rm invEx text g).isOk = true) :
    ∃ r, analyze idx rm invEx tokens text llm = Except.ok r := by
  by_cases hrel : has_relevant_predicates idx tokens = true
  · obtain ⟨g, hg⟩ := resolvedGroup_isSome idx tokens hrel
    rw [analyze_eq_analyzeResolved idx rm invEx tokens text llm g hrel hg]
    have hp := h g hg
    unfold analyzeResolved
    rcases hmp : make_prompt rm invEx text g with e | p
    · rw [hmp] at hp
      simp [Except.isOk, Except.toBool] at hp
    · simp only [hmp]
      rcases llm with e | o
      · exact ⟨_, rfl⟩
      · rcases o with _ | entries
        · exact ⟨_, rfl⟩
        · exact ⟨_, rfl⟩
  · have hrel' : has_relevant_predicates idx tokens = false := by
      simpa using hrel
    exact ⟨⟨text, [], [], [], false, none⟩, by simp [analyze, hrel']⟩

set_option maxRecDepth 8192 in
/-- Witness for C1 amended at a concrete store whose resolved group has a
role rule and one example, with a raising gateway. -/
theorem analyze_ok_of_prompt_ok_witness :
    ∃ r, analyze [("бояться", "fear")] [("fear", "RULES")]
        (create_inverse_examples_mapping
          [⟨"fear", "Пример", [⟨"- Я # Experiencer"⟩]⟩])
        [⟨"боюсь", "бояться", "VERB"⟩] "Я боюсь" (Except.error "net") =
      Except.ok r := by
  apply analyze_ok_of_prompt_ok
  intro g hg
  have h0 : resolvedGroup [("бояться", "fear")]
      [⟨"боюсь", "бояться", "VERB"⟩] = some "fear" := by decide
  rw [h0] at hg
  injection hg with hg'
  subst hg'
  decide

/-- C6 counterexample: a gateway exception whose description is the empty
string is caught and surfaced, but the `error` field then holds the empty
string — the error string is not non-empty for every raising gateway
call, it merely equals the exception's description. -/
theorem gateway_empty_error_counterexample :
    analyze [("бояться", "fear")] [("fear", "RULES")]
        (create_inverse_examples_mapping
          [⟨"fear", "Пример", [⟨"- Я # Experiencer"⟩]⟩])
        [⟨"боюсь", "бояться", "VERB"⟩] "Я боюсь" (Except.error "") =
      Except.ok ⟨"Я боюсь", ["боюсь"], ["бояться"], [], true, some ""⟩ := by
  decide

/-- C6 amended: when a relevant predicate was found, the Prompt Builder
succeeds, and the gateway call raises with description `e`, `analyze`
catches the exception and returns `has_relevant_predicates = true`, the
non-empty extracted predicates and lemmas, empty roles, and an `error`
field equal to `e` — non-empty whenever the exception's description is. -/
theorem gateway_failure_degraded (idx : FormIndex)
    (rm : List (String × String)) (invEx : List (String × List Example))
    (tokens : List Token) (text g e : String) (prompt : List Message)
    (hrel : has_relevant_predicates idx tokens = true)
    (hg : resolvedGroup idx tokens = some g)
    (hmp : make_prompt rm invEx text g = Except.ok prompt)
    (hne : e ≠ "") :
    ∃ r, analyze idx rm invEx tokens text (Except.error e) = Except.ok r ∧
      r.has_relevant_predicates = true ∧
      r.predicates = (extract_predicates idx tokens).1 ∧ r.predicates ≠ [] ∧
      r.lemmas = (extract_predicates idx tokens).2 ∧ r.lemmas ≠ [] ∧
      r.roles = [] ∧ r.error = some e ∧ r.error ≠ some "" := by
  rw [analyze_eq_analyzeResolved idx rm invEx tokens text (Except.error e) g
    hrel hg]
  unfold analyzeResolved
  simp only [hmp]
  obtain ⟨h1, h2⟩ := extract_predicates_ne_nil idx tokens hrel
  exact ⟨_, rfl, rfl, rfl, h1, rfl, h2, rfl, rfl, by simpa using hne⟩

set_option maxRecDepth 8192 in
/-- Witness for C6 amended on a concrete store and a simulated network
error. -/
theorem gateway_failure_degraded_witness :
    ∃ r, analyze [("бояться", "fear")] [("fear", "RULES")]
        (create_inverse_examples_mapping
          [⟨"fear", "Пример", [⟨"- Я # Experiencer"⟩]⟩])
        [⟨"боюсь", "бояться", "VERB"⟩] "Я боюсь"
        (Except.error "Connection error") = Except.ok r ∧
      r.has_relevant_predicates = true ∧
      r.predicates = (extract_predicates [("бояться", "fear")]
        [⟨"боюсь", "бояться", "VERB"⟩]).1 ∧ r.predicates ≠ [] ∧
      r.lemmas = (extract_predicates [("бояться", "fear")]
        [⟨"боюсь", "бояться", "VERB"⟩]).2 ∧ r.lemmas ≠ [] ∧
      r.roles = [] ∧ r.error = some "Connection error" ∧
      r.error ≠ some "" :=
  gateway_failure_degraded [("бояться", "fear")] [("fear", "RULES")]
    (create_inverse_examples_mapping
      [⟨"fear", "Пример", [⟨"- Я # Experiencer"⟩]⟩])
    [⟨"боюсь", "бояться", "VERB"⟩] "Я боюсь" "fear" "Connection error"
    ((make_prompt [("fear", "RULES")]
      (create_inverse_examples_mapping
        [⟨"fear", "Пример", [⟨"- Я # Experiencer"⟩]⟩])
      "Я боюсь" "fear").toOption.getD [])
    (by decide) (by decide) (by decide) (by decide)

/-- C7 counterexample: a resolved group with a role rule but no example
in the corpus has no bucket in the inverse examples mapping, so
`make_prompt` raises a KeyError instead of building a prompt with zero
example messages. -/
theorem make_prompt_no_examples_counterexample :
    make_prompt [("fear", "RULES")] (create_inverse_examples_mapping [])
        "Я боюсь" "fear" =
      Except.error "KeyError: inv_examples_mapping" := by decide

/-- Binding a successful `Except` computation runs the continuation. -/
theorem except_bind_ok {ε α β : Type} (a : α) (f : α → Except ε β) :
    ((Except.ok a : Except ε α) >>= f) = f a := rfl

/-- Closed form of the example fold of `make_prompt` when every example
re-encodes successfully. -/
theorem make_prompt_fold (l : List Example) (init : List Message)
    (h : ∀ ex ∈ l, (encodeExampleRoles ex.roles).isOk = true) :
    List.foldlM
      (fun (acc : List Message) ex => do
        let encoded ← encodeExampleRoles ex.roles
        pure (acc ++
          [⟨"user", .str ex.text⟩, ⟨"assistant", .rolesJson encoded⟩]))
      init l =
    Except.ok (init ++ l.bind fun ex =>
      [⟨"user", .str ex.text⟩,
       ⟨"assistant",
        .rolesJson ((encodeExampleRoles ex.roles).toOption.getD [])⟩]) := by
  induction l generalizing init with
  | nil =>
    simp only [List.foldlM, List.nil_bind, List.append_nil]
    rfl
  | cons ex rest ih =>
    have hex := h ex (by simp)
    have hrest : ∀ x ∈ rest, (encodeExampleRoles x.roles).isOk = true :=
      fun x hx => h x (by simp [hx])
    rcases he : encodeExampleRoles ex.roles with e | enc
    · rw [he] at hex
      simp [Except.isOk, Except.toBool] at hex
    · rw [List.foldlM_cons]
      simp only [he, except_bind_ok, pure_bind]
      rw [ih _ hrest]
      simp [List.cons_bind, List.append_assoc, Except.toOption, he]

set_option maxRecDepth 8192 in
/-- C7 amended: when the resolved group has a role-rule entry and an
example bucket and the first two examples re-encode successfully, the
built prompt is exactly one system message, then a user message with the
example's raw text followed by an assistant message with the re-encoded
roles for each of the first two examples (fewer if the bucket has fewer),
then one final user message containing the literal input text; a group
with no bucket raises instead. -/
theorem make_prompt_shape (rm : List (String × String))
    (invEx : List (String × List Example)) (text g ruleSet : String)
    (exs : List Example)
    (h1 : List.lookup g rm = some ruleSet)
    (h2 : List.lookup g invEx = some exs)
    (h3 : ∀ ex ∈ exs.take 2, (encodeExampleRoles ex.roles).isOk = true) :
    make_prompt rm invEx text g = Except.ok
      (⟨"system", .str (systemContent ruleSet)⟩ ::
        ((exs.take 2).bind fun ex =>
          [⟨"user", .str ex.text⟩,
           ⟨"assistant",
            .rolesJson ((encodeExampleRoles ex.roles).toOption.getD [])⟩])
        ++ [⟨"user", .str (finalUserContent text)⟩]) ∧
    ∃ pre post, finalUserContent text = pre ++ text ++ post := by
  constructor
  · unfold make_prompt
    simp only [h1, h2]
    rw [make_prompt_fold (exs.take 2) _ h3]
    simp
  · exact ⟨"Please analyze this text and identify all semantic roles:\n",
      "\n\nRemember:\n1. Only identify roles that are explicitly present in the text\n2. Use the exact words/phrases from the input text\n3. Provide clear, concise reasoning for each role\n4. If no roles can be identified, use \"Not-Applicable\"",
      rfl⟩

/-- Witness for C7 amended: a bucket with three examples; exactly the
first two produce user/assistant pairs. -/
theorem make_prompt_shape_witness :
    make_prompt [("fear", "RULES")]
        [("fear", [⟨"fear", "Пример один", [⟨"- Я # Experiencer"⟩]⟩,
                   ⟨"fear", "Пример два", [⟨"- страх # Object"⟩]⟩,
                   ⟨"fear", "Пример три", [⟨"- он # Causator"⟩]⟩])]
        "Я боюсь" "fear" = Except.ok
      (⟨"system", .str (systemContent "RULES")⟩ ::
        ((([⟨"fear", "Пример один", [⟨"- Я # Experiencer"⟩]⟩,
            ⟨"fear", "Пример два", [⟨"- страх # Object"⟩]⟩,
            ⟨"fear", "Пример три", [⟨"- он # Causator"⟩]⟩] :
           List Example).take 2).bind
          fun ex =>
          [⟨"user", .str ex.text⟩,
           ⟨"assistant",
            .rolesJson ((encodeExampleRoles ex.roles).toOption.getD [])⟩])
        ++ [⟨"user", .str (finalUserContent "Я боюсь")⟩]) :=
  (make_prompt_shape [("fear", "RULES")]
    [("fear", [⟨"fear", "Пример один", [⟨"- Я # Experiencer"⟩]⟩,
               ⟨"fear", "Пример два", [⟨"- страх # Object"⟩]⟩,
               ⟨"fear", "Пример три", [⟨"- он # Causator"⟩]⟩])]
    "Я боюсь" "fear" "RULES"
    [⟨"fear", "Пример один", [⟨"- Я # Experiencer"⟩]⟩,
     ⟨"fear", "Пример два", [⟨"- страх # Object"⟩]⟩,
     ⟨"fear", "Пример три", [⟨"- он # Causator"⟩]⟩]
    (by decide) (by decide) (by decide)).1

end SRL
